import Mathlib

/-!
Verification development for the CSV language detector (src/App.tsx).

The embedding models the two processing passes of the application:

* `handleFileUpload` / `inferSchema`: the schema-inference pass run once per
  uploaded file. Papa.parse is invoked in array mode, so each row is a list
  of cells; the code then inspects the first row to decide whether it is a
  header and which columns are selectable.
* `handleColumnSelect` / `processData`: the row-classification pass run when
  the user picks a column. Papa.parse is invoked with `header: true`, so the
  first CSV row becomes the key set and every data row is a key-value record.

JavaScript strings are modelled by Lean `String` (a sequence of characters);
`s.substring(0, n)`, `s.trim()` and string truthiness are given explicit
embeddings below. The external collaborators are parameters: the CSV parse
outcome is an `Except` value and the language classifier (franc) is a
function argument, matching the purity contracts of the specification.
-/

namespace CsvLangDetector

/-- White-space characters removed by JavaScript `String.prototype.trim`
(the ASCII part of the WhiteSpace/LineTerminator productions). -/
def jsWs (c : Char) : Bool :=
  c = ' ' || c = '\t' || c = '\n' || c = '\r' || c = '\x0b' || c = '\x0c'

/-- Embedding of JavaScript `s.trim()`: drop white space from both ends. -/
def jsTrim (s : String) : String :=
  ⟨((s.data.dropWhile jsWs).reverse.dropWhile jsWs).reverse⟩

/-- Embedding of JavaScript `s.substring(0, n)`: the first `n` characters. -/
def jsSubstringTo (n : Nat) (s : String) : String :=
  ⟨s.data.take n⟩

/-- A cell of the array-mode parse (`results.data[0] as string[]` in
`handleFileUpload`). The code checks `typeof cell === 'string'`, so a cell
is either a string or some other runtime value. -/
inductive Cell where
  | str (s : String)
  | other
deriving DecidableEq

/-- The string content of a cell; `.other` has none (the code only reads the
content on the branch where every cell passed the `typeof` check). -/
def cellString : Cell → String
  | .str s => s
  | .other => ""

/-- A row of the header-mode parse (`Record<string, string>` in
`handleColumnSelect`): an ordered association of keys to string values.
A missing key models the JavaScript `undefined` read `row[k]`. -/
abbrev Row := List (String × String)

/-- Embedding of the property read `row[key]`: `none` is `undefined`. -/
def rowGet (r : Row) (key : String) : Option String :=
  (r.find? (fun p => p.1 = key)).map (fun p => p.2)

/-- Property read through a possibly-undefined key (`row[undefined]` is
`undefined` in JavaScript). -/
def rowGetOpt (r : Row) (key : Option String) : Option String :=
  key.bind (fun k => rowGet r k)

/-- The per-row output record of the pipeline. `label` is an `Option`
because `row[labelColumn]` can be `undefined` for a row missing the label
key. -/
structure LanguageResult where
  label : Option String
  language : String
  text : String
deriving DecidableEq

/-- The aggregate statistics record. The JavaScript `Set` of language names
is modelled by a deduplicated list (only its membership and size matter). -/
structure Stats where
  rows : Nat
  labels : Nat
  languages : List String
deriving DecidableEq

/-- The component state touched by the two handlers. -/
structure AppState where
  columns : List String
  selectedColumn : String
  error : Option String
  isProcessing : Bool
  languageResults : List LanguageResult
  stats : Stats
deriving DecidableEq

/-- Modelled from the spec: the fixed code-to-name reference table imported
as `langCodes` (its module `src/langCodes` is not under `src/`). Per §4.4 it
is a fixed table from classifier codes to human-readable names; a
representative table of ISO 639-3 codes is used, every name non-empty as a
human-readable name is. -/
def langCodesList : List (String × String) :=
  [("eng", "English"), ("fra", "French"), ("spa", "Spanish"),
   ("deu", "German"), ("ita", "Italian"), ("por", "Portuguese"),
   ("rus", "Russian"), ("jpn", "Japanese"), ("kor", "Korean"),
   ("cmn", "Mandarin Chinese"), ("arb", "Standard Arabic"), ("nld", "Dutch")]

/-- Lookup in the code-to-name table (`langCodes[langCode]`; `none` is
`undefined`). -/
def langCodes (code : String) : Option String :=
  (langCodesList.find? (fun p => p.1 = code)).map (fun p => p.2)

/-- `getLanguageName` with the lookup table abstracted, to state properties
that hold regardless of the table's contents. The `some ""` branch mirrors
the JavaScript `langCodes[langCode] || langCode`, where an empty-string
table entry is falsy and falls through to the raw code. -/
def resolveWith (table : String → Option String) (langCode : String) : String :=
  if langCode = "und" then "Undetermined"
  else
    match table langCode with
    | some name => if name = "" then langCode else name
    | none => langCode

/-- Embedding of `getLanguageName` (src/App.tsx lines 23-28). -/
def getLanguageName : String → String :=
  resolveWith langCodes

/-- Embedding of the preview-text derivation (src/App.tsx line 76):
`row[column].substring(0, 50) + (row[column].length > 50 ? '...' : '')`. -/
def truncateText (s : String) : String :=
  jsSubstringTo 50 s ++ (if s.length > 50 then "..." else "")

/-- Upload-pass header detection (src/App.tsx line 39):
`firstRow.every(cell => typeof cell === 'string' && cell.trim() !== '')`. -/
def uploadHasHeaders (firstRow : List Cell) : Bool :=
  firstRow.all fun c =>
    match c with
    | .str s => jsTrim s != ""
    | .other => false

/-- Embedding of `firstRow[1] || ''`: index read with empty-string fallback
for `undefined` and for a falsy (empty) entry. -/
def jsIndexOrEmpty (l : List String) (i : Nat) : String :=
  match l[i]? with
  | some s => if s = "" then "" else s
  | none => ""

/-- Schema inference of `handleFileUpload` (src/App.tsx lines 37-48).
`none` models the guard `results.data && results.data.length > 0` failing:
the handler performs no state update at all. -/
def inferSchema (parsed : List (List Cell)) : Option (List String × String) :=
  match parsed with
  | [] => none
  | firstRow :: _ =>
    if uploadHasHeaders firstRow then
      let names := firstRow.map cellString
      some (names.drop 1, jsIndexOrEmpty names 1)
    else
      some ((List.range firstRow.length).map (fun i => "Column " ++ toString (i + 1)),
            "Column 2")

/-- State transition of `handleFileUpload` (src/App.tsx lines 30-55) given
the parse outcome. `setError(null)` runs before the parse; the error
callback records a message and touches nothing else. -/
def handleFileUpload (outcome : Except String (List (List Cell))) (s : AppState) :
    AppState :=
  let s1 := { s with error := none }
  match outcome with
  | .error msg => { s1 with error := some ("Error parsing CSV: " ++ msg) }
  | .ok parsed =>
    match inferSchema parsed with
    | none => s1
    | some (cols, sel) => { s1 with columns := cols, selectedColumn := sel }

/-- The key list `Object.keys(data[0])` of the first data row. -/
def headerKeys (r0 : Row) : List String :=
  r0.map (fun p => p.1)

/-- Pipeline-pass header re-detection (src/App.tsx line 66):
`Object.keys(data[0]).every(key => key !== '')` — note: no trimming here,
unlike the upload pass. -/
def pipelineHasHeaders (r0 : Row) : Bool :=
  (headerKeys r0).all (fun k => k != "")

/-- Label-column resolution (src/App.tsx line 67):
`hasHeaders ? Object.keys(data[0])[0] : '0'`; `none` is `undefined` (a
key-less first row). -/
def labelColumnOf (r0 : Row) : Option String :=
  if pipelineHasHeaders r0 then (headerKeys r0).head? else some "0"

/-- The row filter (src/App.tsx line 71):
`row[column] && typeof row[column] === 'string'` — the cell must be present
and a non-empty (truthy) string. -/
def cellOk (column : String) (r : Row) : Bool :=
  match rowGet r column with
  | some s => s != ""
  | none => false

/-- Construction of one `LanguageResult` (src/App.tsx lines 72-78); `idx` is
the row's index within the filtered (surviving) rows. -/
def mkResult (classify : String → String) (hasHeaders : Bool)
    (labelColumn : Option String) (column : String) (idx : Nat) (r : Row) :
    LanguageResult :=
  let cell := (rowGet r column).getD ""
  { label := if hasHeaders then rowGetOpt r labelColumn
             else some ("Row " ++ toString (idx + 1))
  , language := getLanguageName (classify cell)
  , text := truncateText cell }

/-- Indexed map, modelling `Array.prototype.map((row, index) => ...)`. -/
def mapWithIndex (f : Nat → α → β) : Nat → List α → List β
  | _, [] => []
  | i, a :: as => f i a :: mapWithIndex f (i + 1) as

/-- The statistics computation (src/App.tsx lines 81-85). A JavaScript `Set`
is modelled by `List.dedup`; `data.map(row => row[labelColumn])` collects
possibly-undefined values, so the distinct count is over `Option String`. -/
def mkStats (data : List Row) (hasHeaders : Bool) (labelColumn : Option String)
    (results : List LanguageResult) : Stats :=
  { rows := data.length
  , labels :=
      if hasHeaders then
        ((data.map (fun r => rowGetOpt r labelColumn)).dedup).length
      else data.length
  , languages := (results.map (fun r => r.language)).dedup }

/-- Core of the `complete` callback of `handleColumnSelect` (src/App.tsx
lines 64-88). On an empty data array the source evaluates
`Object.keys(data[0])` with `data[0] === undefined` and throws a
`TypeError`; that abrupt termination is modelled by `none`. -/
def processData (classify : String → String) (column : String) (data : List Row) :
    Option (List LanguageResult × Stats) :=
  match data with
  | [] => none
  | r0 :: _ =>
    let hh := pipelineHasHeaders r0
    let lc := labelColumnOf r0
    let results := mapWithIndex (mkResult classify hh lc column) 0
        (data.filter (cellOk column))
    some (results, mkStats data hh lc results)

/-- State transition of `handleColumnSelect` (src/App.tsx lines 57-95) given
the parse outcome. `setSelectedColumn`, `setIsProcessing(true)` and
`setError(null)` run before the parse; the error callback records a message
and resets the processing flag, leaving results and stats untouched; the
`none` (thrown) case commits none of the result/stat updates. -/
def handleColumnSelect (classify : String → String) (column : String)
    (outcome : Except String (List Row)) (s : AppState) : AppState :=
  let s1 := { s with selectedColumn := column, isProcessing := true, error := none }
  match outcome with
  | .error msg =>
    { s1 with error := some ("Error processing CSV: " ++ msg), isProcessing := false }
  | .ok data =>
    match processData classify column data with
    | none => s1
    | some (results, st) =>
      { s1 with languageResults := results, stats := st, isProcessing := false }

/-! Helper lemmas. -/

theorem length_mapWithIndex (f : Nat → α → β) (i : Nat) (l : List α) :
    (mapWithIndex f i l).length = l.length := by
  induction l generalizing i with
  | nil => rfl
  | cons a as ih => simp [mapWithIndex, ih]

theorem mem_mapWithIndex (f : Nat → α → β) (i : Nat) (l : List α) (b : β)
    (hb : b ∈ mapWithIndex f i l) : ∃ j a, a ∈ l ∧ b = f j a := by
  induction l generalizing i with
  | nil => simp [mapWithIndex] at hb
  | cons a as ih =>
    simp only [mapWithIndex, List.mem_cons] at hb
    rcases hb with h | h
    · exact ⟨i, a, List.mem_cons_self a as, h⟩
    · obtain ⟨j, x, hx, hbx⟩ := ih (i + 1) h
      exact ⟨j, x, List.mem_cons_of_mem a hx, hbx⟩

theorem processData_cons (classify : String → String) (column : String)
    (r0 : Row) (rest : List Row) :
    processData classify column (r0 :: rest) =
      some (mapWithIndex
              (mkResult classify (pipelineHasHeaders r0) (labelColumnOf r0) column) 0
              ((r0 :: rest).filter (cellOk column)),
            mkStats (r0 :: rest) (pipelineHasHeaders r0) (labelColumnOf r0)
              (mapWithIndex
                (mkResult classify (pipelineHasHeaders r0) (labelColumnOf r0) column) 0
                ((r0 :: rest).filter (cellOk column)))) := rfl

theorem langCodes_name_nonempty (code name : String)
    (h : langCodes code = some name) : name ≠ "" := by
  rw [langCodes, Option.map_eq_some'] at h
  obtain ⟨p, hp, hn⟩ := h
  have hm := List.mem_of_find?_eq_some hp
  have hall : ∀ q ∈ langCodesList, q.2 ≠ "" := by decide
  subst hn
  exact hall p hm

theorem truncateText_length_le (s : String) : (truncateText s).length ≤ 53 := by
  rw [truncateText, String.length_append]
  have h1 : (jsSubstringTo 50 s).length ≤ 50 := List.length_take_le 50 s.data
  by_cases h : s.length > 50
  · rw [if_pos h]
    have h2 : ("..." : String).length = 3 := rfl
    omega
  · rw [if_neg h]
    have h2 : ("" : String).length = 0 := rfl
    omega

/-! Claim theorems. -/

/-- Claim C1, counterexample. The claim says one trim-based rule governs
both the upload pass and the pipeline's header re-detection. For the first
row `[" ", "x"]` (whitespace-only first cell) the upload pass judges the
table headerless, but the pipeline pass — whose keys are the row-0 cells —
judges it to have a header, and indeed takes the row label from the
whitespace-named column instead of synthesising `"Row 1"`. -/
theorem C1_counterexample :
    uploadHasHeaders [Cell.str " ", Cell.str "x"] = false ∧
    pipelineHasHeaders [(" ", "a"), ("x", "hello")] = true ∧
    (processData (fun _ => "und") "x" [[(" ", "a"), ("x", "hello")]]).map
        (fun p => p.1.map (fun r => r.label)) = some [some "a"] :=
  ⟨by decide, by decide, by decide⟩

/-- Claim C1, amended: the schema-inference pass at upload judges row 0 a
header iff every cell is a string that is non-empty after trimming, but the
header re-detection inside the row-classification pipeline uses a different
rule: it judges a header iff every key of the first data row (i.e. every
row-0 cell) is non-empty WITHOUT trimming, so a whitespace-only cell
disqualifies the row at upload yet not in the pipeline. -/
theorem C1_amended :
    ∀ (firstRow : List Cell) (r0 : Row),
    (uploadHasHeaders firstRow = true ↔
      ∀ c ∈ firstRow, ∃ s, c = Cell.str s ∧ jsTrim s ≠ "") ∧
    (pipelineHasHeaders r0 = true ↔ ∀ k ∈ headerKeys r0, k ≠ "") := by
  intro firstRow r0
  constructor
  · rw [uploadHasHeaders, List.all_eq_true]
    constructor
    · intro h c hc
      have hcell := h c hc
      cases c with
      | str s =>
        refine ⟨s, rfl, ?_⟩
        simpa using hcell
      | other => simp at hcell
    · intro h c hc
      obtain ⟨s, rfl, hs⟩ := h c hc
      simpa using hs
  · rw [pipelineHasHeaders, List.all_eq_true]
    simp

/-- Claim C2, counterexample. For the headerless first row
`["", "a", "b"]` the source maps synthetic names over the WHOLE row without
dropping the label column: the selectable list is
`["Column 1", "Column 2", "Column 3"]`, so `selectableColumns[0]` is
`"Column 1"`, not `"Column 2"`, and the label column's synthetic name IS
included. -/
theorem C2_counterexample :
    inferSchema [[Cell.str "", Cell.str "a", Cell.str "b"]] =
      some (["Column 1", "Column 2", "Column 3"], "Column 2") ∧
    ("Column 1" : String) ≠ "Column 2" :=
  ⟨by decide, by decide⟩

/-- Claim C2, amended: for a headerless table the selectable-columns list
aligns one-to-one with ALL source columns from index 0 onward, with
`selectableColumns[i] = "Column (i+1)"`; in particular the label column's
synthetic name `"Column 1"` is included at position 0. The default selected
column is `"Column 2"`. -/
theorem C2_amended :
    ∀ (firstRow : List Cell) (rest : List (List Cell))
      (cols : List String) (sel : String),
    uploadHasHeaders firstRow = false →
    inferSchema (firstRow :: rest) = some (cols, sel) →
    sel = "Column 2" ∧ cols.length = firstRow.length ∧
    ∀ i, i < firstRow.length → cols[i]? = some ("Column " ++ toString (i + 1)) := by
  intro firstRow rest cols sel hFalse h
  simp only [inferSchema, hFalse, Bool.false_eq_true, if_false, Option.some.injEq,
    Prod.mk.injEq] at h
  obtain ⟨hcols, hsel⟩ := h
  refine ⟨hsel.symm, ?_, ?_⟩
  · rw [← hcols, List.length_map, List.length_range]
  · intro i hi
    rw [← hcols, List.getElem?_map, List.getElem?_range hi]
    rfl

/-- Claim C2, witness for the amended theorem at the headerless first row
`["", "x"]`. -/
theorem C2_witness :
    uploadHasHeaders [Cell.str "", Cell.str "x"] = false ∧
    inferSchema [[Cell.str "", Cell.str "x"]] =
      some (["Column 1", "Column 2"], "Column 2") ∧
    (["Column 1", "Column 2"] : List String)[1]? =
      some ("Column " ++ toString (1 + 1)) :=
  ⟨by decide, by decide,
    (C2_amended [Cell.str "", Cell.str "x"] [] ["Column 1", "Column 2"] "Column 2"
      (by decide) (by decide)).2.2 1 (by decide)⟩

/-- Claim C3, counterexample. The claim's "`text` ends in `\"...\"` iff the
original selected cell's length exceeds 50" fails in the only-if direction:
for the cell `"..."` (length 3) the pipeline produces the text `"..."`,
which ends in `"..."` although the original length does not exceed 50. -/
theorem C3_counterexample :
    processData (fun _ => "und") "text" [[("label", "L"), ("text", "...")]] =
      some ([{ label := some "L", language := "Undetermined", text := "..." }],
            { rows := 1, labels := 1, languages := ["Undetermined"] }) ∧
    ("..." : String) = "" ++ "..." ∧ ("..." : String).length ≤ 50 :=
  ⟨by decide, rfl, by decide⟩

/-- Claim C3, amended: for every `LanguageResult` produced by the pipeline,
the text field equals the first 50 characters of the selected cell's content
with `"..."` appended exactly when the original cell's length exceeds 50;
hence its length is at most 53 and it ends in `"..."` whenever the original
length exceeds 50 (the converse fails when a short cell itself ends in
`"..."`). -/
theorem C3_amended :
    ∀ (classify : String → String) (column : String) (data : List Row)
      (results : List LanguageResult) (st : Stats) (res : LanguageResult),
    processData classify column data = some (results, st) →
    res ∈ results →
    ∃ r cell, r ∈ data ∧ rowGet r column = some cell ∧ cell ≠ "" ∧
      res.text = jsSubstringTo 50 cell ++ (if cell.length > 50 then "..." else "") ∧
      res.text.length ≤ 53 ∧
      (cell.length > 50 → ∃ t, res.text = t ++ "...") := by
  intro classify column data results st res h hmem
  cases data with
  | nil => simp [processData] at h
  | cons r0 rest =>
    rw [processData_cons] at h
    simp only [Option.some.injEq, Prod.mk.injEq] at h
    obtain ⟨hres, -⟩ := h
    rw [← hres] at hmem
    obtain ⟨j, r, hrmem, hval⟩ := mem_mapWithIndex _ _ _ _ hmem
    rw [List.mem_filter] at hrmem
    obtain ⟨hrdata, hok⟩ := hrmem
    rw [cellOk] at hok
    cases hcell : rowGet r column with
    | none => rw [hcell] at hok; simp at hok
    | some cell =>
      rw [hcell] at hok
      have hne : cell ≠ "" := by simpa using hok
      refine ⟨r, cell, hrdata, hcell, hne, ?_, ?_, ?_⟩
      · rw [hval, mkResult]
        simp only [hcell, Option.getD_some]
        rfl
      · rw [hval, mkResult]
        simp only [hcell, Option.getD_some]
        exact truncateText_length_le cell
      · intro hlong
        rw [hval, mkResult]
        simp only [hcell, Option.getD_some]
        refine ⟨jsSubstringTo 50 cell, ?_⟩
        show truncateText cell = _
        rw [truncateText, if_pos hlong]

/-- Claim C3, witness for the amended theorem: the single produced result
for the cell `"hello"`. -/
theorem C3_witness :
    processData (fun _ => "und") "text" [[("label", "A"), ("text", "hello")]] =
      some ([{ label := some "A", language := "Undetermined", text := "hello" }],
            { rows := 1, labels := 1, languages := ["Undetermined"] }) ∧
    ({ label := some "A", language := "Undetermined", text := "hello" } :
        LanguageResult) ∈
      [({ label := some "A", language := "Undetermined", text := "hello" } :
        LanguageResult)] ∧
    (∃ r cell, r ∈ [[("label", "A"), ("text", "hello")]] ∧
      rowGet r "text" = some cell ∧ cell ≠ "" ∧
      ({ label := some "A", language := "Undetermined", text := "hello" } :
        LanguageResult).text =
        jsSubstringTo 50 cell ++ (if cell.length > 50 then "..." else "") ∧
      ({ label := some "A", language := "Undetermined", text := "hello" } :
        LanguageResult).text.length ≤ 53 ∧
      (cell.length > 50 →
        ∃ t, ({ label := some "A", language := "Undetermined", text := "hello" } :
          LanguageResult).text = t ++ "...")) :=
  ⟨by decide, by decide,
    C3_amended (fun _ => "und") "text" [[("label", "A"), ("text", "hello")]]
      [{ label := some "A", language := "Undetermined", text := "hello" }]
      { rows := 1, labels := 1, languages := ["Undetermined"] }
      { label := some "A", language := "Undetermined", text := "hello" }
      (by decide) (by decide)⟩

/-- Claim C4: resolution is a total function; `"und"` yields
`"Undetermined"` regardless of the table's contents; any other code present
in the fixed table yields the table's name; a code absent from the table is
passed through unchanged. The `langCodes` table itself is modelled from the
spec since its module is not under `src/`. -/
theorem C4_resolver :
    ∀ (table : String → Option String) (code name : String),
    resolveWith table "und" = "Undetermined" ∧
    (code ≠ "und" → langCodes code = some name → getLanguageName code = name) ∧
    (code ≠ "und" → langCodes code = none → getLanguageName code = code) := by
  intro table code name
  refine ⟨rfl, ?_, ?_⟩
  · intro hund hsome
    have hne := langCodes_name_nonempty code name hsome
    rw [getLanguageName, resolveWith, if_neg hund, hsome]
    simp [hne]
  · intro hund hnone
    rw [getLanguageName, resolveWith, if_neg hund, hnone]

/-- Claim C4, witness: `"eng"` resolves through the table to `"English"`,
an absent code `"zzz"` passes through, and `"und"` maps to `"Undetermined"`
even for a table that maps every code. -/
theorem C4_witness :
    (("eng" : String) ≠ "und" ∧ langCodes "eng" = some "English" ∧
      getLanguageName "eng" = "English") ∧
    (("zzz" : String) ≠ "und" ∧ langCodes "zzz" = none ∧
      getLanguageName "zzz" = "zzz") ∧
    resolveWith (fun _ => some "Bogus") "und" = "Undetermined" :=
  ⟨⟨by decide, by decide,
      (C4_resolver langCodes "eng" "English").2.1 (by decide) (by decide)⟩,
    ⟨by decide, by decide,
      (C4_resolver langCodes "zzz" "zzz").2.2 (by decide) (by decide)⟩,
    (C4_resolver (fun _ => some "Bogus") "x" "y").1⟩

/-- Claim C5: for every successfully processed (table, column) pair,
`Stats.rows` equals the number of data rows considered before the
text-presence filter, so it bounds the result-sequence length from above,
with equality iff every data row has a present, non-empty selected-column
cell. -/
theorem C5_row_count :
    ∀ (classify : String → String) (column : String) (data : List Row)
      (results : List LanguageResult) (st : Stats),
    processData classify column data = some (results, st) →
    st.rows = data.length ∧ results.length ≤ st.rows ∧
    (results.length = st.rows ↔ ∀ r ∈ data, cellOk column r = true) := by
  intro classify column data results st h
  cases data with
  | nil => simp [processData] at h
  | cons r0 rest =>
    rw [processData_cons] at h
    simp only [Option.some.injEq, Prod.mk.injEq] at h
    obtain ⟨hres, hst⟩ := h
    refine ⟨?_, ?_, ?_⟩
    · rw [← hst]
      rfl
    · rw [← hres, ← hst, length_mapWithIndex]
      exact List.length_filter_le _ _
    · rw [← hres, ← hst, length_mapWithIndex]
      show ((r0 :: rest).filter (cellOk column)).length = (r0 :: rest).length ↔ _
      exact List.filter_length_eq_length

/-- Claim C5, witness: a two-row table in which the second row's selected
cell is empty, so one result is produced while `Stats.rows` is 2. -/
theorem C5_witness :
    processData (fun _ => "und") "text"
        [[("label", "A"), ("text", "hello")], [("label", "B"), ("text", "")]] =
      some ([{ label := some "A", language := "Undetermined", text := "hello" }],
            { rows := 2, labels := 2, languages := ["Undetermined"] }) ∧
    (({ rows := 2, labels := 2, languages := ["Undetermined"] } : Stats).rows =
        ([[("label", "A"), ("text", "hello")], [("label", "B"), ("text", "")]] :
          List Row).length ∧
      [({ label := some "A", language := "Undetermined", text := "hello" } :
          LanguageResult)].length ≤
        ({ rows := 2, labels := 2, languages := ["Undetermined"] } : Stats).rows ∧
      ([({ label := some "A", language := "Undetermined", text := "hello" } :
            LanguageResult)].length =
          ({ rows := 2, labels := 2, languages := ["Undetermined"] } : Stats).rows ↔
        ∀ r ∈ ([[("label", "A"), ("text", "hello")], [("label", "B"), ("text", "")]] :
            List Row), cellOk "text" r = true)) :=
  ⟨by decide,
    C5_row_count (fun _ => "und") "text"
      [[("label", "A"), ("text", "hello")], [("label", "B"), ("text", "")]]
      [{ label := some "A", language := "Undetermined", text := "hello" }]
      { rows := 2, labels := 2, languages := ["Undetermined"] } (by decide)⟩

/-- Claim C6: `Stats.labels` equals the number of distinct label-column
values across all data rows when the (re-detected) header exists, and
equals `Stats.rows` when it does not. -/
theorem C6_labels :
    ∀ (classify : String → String) (column : String) (r0 : Row)
      (rest : List Row) (results : List LanguageResult) (st : Stats),
    processData classify column (r0 :: rest) = some (results, st) →
    (pipelineHasHeaders r0 = true →
      st.labels =
        ((r0 :: rest).map (fun r => rowGetOpt r (labelColumnOf r0))).toFinset.card) ∧
    (pipelineHasHeaders r0 = false → st.labels = st.rows) := by
  intro classify column r0 rest results st h
  rw [processData_cons] at h
  simp only [Option.some.injEq, Prod.mk.injEq] at h
  obtain ⟨-, hst⟩ := h
  constructor
  · intro hh
    rw [← hst]
    show (if pipelineHasHeaders r0 = true then _ else _) = _
    rw [if_pos hh]
    exact (List.card_toFinset _).symm
  · intro hh
    rw [← hst]
    show (if pipelineHasHeaders r0 = true then _ else _) = _
    rw [if_neg (by simp [hh])]
    rfl

/-- Claim C6, witness: a two-row table with a repeated label value, whose
distinct-label count is 1. -/
theorem C6_witness :
    processData (fun _ => "und") "text"
        [[("label", "A"), ("text", "hi")], [("label", "A"), ("text", "yo")]] =
      some ([{ label := some "A", language := "Undetermined", text := "hi" },
             { label := some "A", language := "Undetermined", text := "yo" }],
            { rows := 2, labels := 1, languages := ["Undetermined"] }) ∧
    pipelineHasHeaders [("label", "A"), ("text", "hi")] = true ∧
    ({ rows := 2, labels := 1, languages := ["Undetermined"] } : Stats).labels =
      (([[("label", "A"), ("text", "hi")], [("label", "A"), ("text", "yo")]] :
          List Row).map
        (fun r => rowGetOpt r (labelColumnOf [("label", "A"), ("text", "hi")]))).toFinset.card :=
  ⟨by decide, by decide,
    (C6_labels (fun _ => "und") "text" [("label", "A"), ("text", "hi")]
      [[("label", "A"), ("text", "yo")]]
      [{ label := some "A", language := "Undetermined", text := "hi" },
       { label := some "A", language := "Undetermined", text := "yo" }]
      { rows := 2, labels := 1, languages := ["Undetermined"] }
      (by decide)).1 (by decide)⟩

/-- Claim C7: on a parse failure, the column-selection pipeline records a
human-readable error message, produces no new results, and leaves the
previously displayed results and stats unchanged; the upload-path error
handler likewise records a message and leaves the column list unchanged. -/
theorem C7_parse_error_atomic :
    ∀ (classify : String → String) (column msg : String) (s : AppState),
    (handleColumnSelect classify column (Except.error msg) s).languageResults =
      s.languageResults ∧
    (handleColumnSelect classify column (Except.error msg) s).stats = s.stats ∧
    (handleColumnSelect classify column (Except.error msg) s).error =
      some ("Error processing CSV: " ++ msg) ∧
    (handleColumnSelect classify column (Except.error msg) s).isProcessing = false ∧
    (handleFileUpload (Except.error msg) s).columns = s.columns ∧
    (handleFileUpload (Except.error msg) s).error =
      some ("Error parsing CSV: " ++ msg) := by
  intro classify column msg s
  exact ⟨rfl, rfl, rfl, rfl, rfl, rfl⟩

/-- Claim C8: the pipeline emits exactly one `LanguageResult` per data row
whose selected-column cell is a present non-empty string (the others are
silently dropped, not errors), and the emitted sequence follows the source
row order: it is the indexed image of an order-preserving sublist of the
data rows. -/
theorem C8_order_preserving :
    ∀ (classify : String → String) (column : String) (r0 : Row)
      (rest : List Row) (results : List LanguageResult) (st : Stats),
    processData classify column (r0 :: rest) = some (results, st) →
    results =
      mapWithIndex
        (mkResult classify (pipelineHasHeaders r0) (labelColumnOf r0) column) 0
        ((r0 :: rest).filter (cellOk column)) ∧
    List.Sublist ((r0 :: rest).filter (cellOk column)) (r0 :: rest) ∧
    results.length = (r0 :: rest).countP (cellOk column) := by
  intro classify column r0 rest results st h
  rw [processData_cons] at h
  simp only [Option.some.injEq, Prod.mk.injEq] at h
  obtain ⟨hres, -⟩ := h
  refine ⟨hres.symm, List.filter_sublist _, ?_⟩
  rw [← hres, length_mapWithIndex, ← List.countP_eq_length_filter]

/-- Claim C8, witness: a two-row table whose second row has an empty
selected cell; exactly the first row survives, in order. -/
theorem C8_witness :
    processData (fun _ => "und") "txt"
        [[("id", "1"), ("txt", "hey")], [("id", "2"), ("txt", "")]] =
      some ([{ label := some "1", language := "Undetermined", text := "hey" }],
            { rows := 2, labels := 2, languages := ["Undetermined"] }) ∧
    ([({ label := some "1", language := "Undetermined", text := "hey" } :
          LanguageResult)] =
        mapWithIndex
          (mkResult (fun _ => "und") (pipelineHasHeaders [("id", "1"), ("txt", "hey")])
            (labelColumnOf [("id", "1"), ("txt", "hey")]) "txt") 0
          (([[("id", "1"), ("txt", "hey")], [("id", "2"), ("txt", "")]] :
            List Row).filter (cellOk "txt")) ∧
      List.Sublist
        (([[("id", "1"), ("txt", "hey")], [("id", "2"), ("txt", "")]] :
            List Row).filter (cellOk "txt"))
        [[("id", "1"), ("txt", "hey")], [("id", "2"), ("txt", "")]] ∧
      [({ label := some "1", language := "Undetermined", text := "hey" } :
          LanguageResult)].length =
        ([[("id", "1"), ("txt", "hey")], [("id", "2"), ("txt", "")]] :
          List Row).countP (cellOk "txt")) :=
  ⟨by decide,
    C8_order_preserving (fun _ => "und") "txt" [("id", "1"), ("txt", "hey")]
      [[("id", "2"), ("txt", "")]]
      [{ label := some "1", language := "Undetermined", text := "hey" }]
      { rows := 2, labels := 2, languages := ["Undetermined"] } (by decide)⟩

/-- Claim C9: evaluation of the code at the failing input. On a table that
parses to zero rows, the upload-time schema inference is guarded and merely
skips (producing the empty-state), but the row-classification pipeline
dereferences `data[0]` unguarded — `Object.keys(data[0])` throws a
`TypeError`, modelled here by `processData` returning `none` — contradicting
the specified non-fatal EmptyFileWarning behaviour. -/
theorem C9_empty_table_eval :
    processData (fun _ => "und") "text" ([] : List Row) = none ∧
    inferSchema ([] : List (List Cell)) = none :=
  ⟨rfl, rfl⟩

/-- Claim C10: the results and stats committed by a successful
column-selection pass depend only on the parsed file content, the chosen
column and the (pure) classifier, not on any prior component state: two
runs from arbitrary prior states commit identical sequences and stats. -/
theorem C10_determinism :
    ∀ (classify : String → String) (column : String) (data : List Row)
      (s1 s2 : AppState) (results : List LanguageResult) (st : Stats),
    processData classify column data = some (results, st) →
    (handleColumnSelect classify column (Except.ok data) s1).languageResults =
      (handleColumnSelect classify column (Except.ok data) s2).languageResults ∧
    (handleColumnSelect classify column (Except.ok data) s1).stats =
      (handleColumnSelect classify column (Except.ok data) s2).stats := by
  intro classify column data s1 s2 results st h
  simp only [handleColumnSelect, h]
  exact ⟨trivial, trivial⟩

/-- Claim C10, witness: the same one-row table processed from two different
prior states commits the same results and stats. -/
theorem C10_witness :
    processData (fun _ => "und") "b" [[("a", "x"), ("b", "hello")]] =
      some ([{ label := some "x", language := "Undetermined", text := "hello" }],
            { rows := 1, labels := 1, languages := ["Undetermined"] }) ∧
    ((handleColumnSelect (fun _ => "und") "b"
          (Except.ok [[("a", "x"), ("b", "hello")]])
          { columns := [], selectedColumn := "", error := none,
            isProcessing := false, languageResults := [],
            stats := { rows := 0, labels := 0, languages := [] } }).languageResults =
        (handleColumnSelect (fun _ => "und") "b"
          (Except.ok [[("a", "x"), ("b", "hello")]])
          { columns := ["b"], selectedColumn := "b", error := some "boom",
            isProcessing := true,
            languageResults := [{ label := none, language := "X", text := "t" }],
            stats := { rows := 7, labels := 5, languages := ["X"] } }).languageResults ∧
      (handleColumnSelect (fun _ => "und") "b"
          (Except.ok [[("a", "x"), ("b", "hello")]])
          { columns := [], selectedColumn := "", error := none,
            isProcessing := false, languageResults := [],
            stats := { rows := 0, labels := 0, languages := [] } }).stats =
        (handleColumnSelect (fun _ => "und") "b"
          (Except.ok [[("a", "x"), ("b", "hello")]])
          { columns := ["b"], selectedColumn := "b", error := some "boom",
            isProcessing := true,
            languageResults := [{ label := none, language := "X", text := "t" }],
            stats := { rows := 7, labels := 5, languages := ["X"] } }).stats) :=
  ⟨by decide,
    C10_determinism (fun _ => "und") "b" [[("a", "x"), ("b", "hello")]]
      { columns := [], selectedColumn := "", error := none,
        isProcessing := false, languageResults := [],
        stats := { rows := 0, labels := 0, languages := [] } }
      { columns := ["b"], selectedColumn := "b", error := some "boom",
        isProcessing := true,
        languageResults := [{ label := none, language := "X", text := "t" }],
        stats := { rows := 7, labels := 5, languages := ["X"] } }
      [{ label := some "x", language := "Undetermined", text := "hello" }]
      { rows := 1, labels := 1, languages := ["Undetermined"] } (by decide)⟩

end CsvLangDetector
